import Mathlib

namespace ExamPortal

/-!
Shallow embedding of the exam-portal attempt engine (quiz/views.py,
quiz/models.py, quiz/admin.py) and proofs of the frozen claims about it.

Timestamps are integers (seconds).  Database tables are lists of records;
each Django `save(update_fields=...)` is modelled by replacing the row with
exactly the listed fields changed.  Fallible lookups return `Option`.
-/

abbrev Time := Int

/-- quiz/models.py `Participant`. -/
structure Participant where
  id : Nat
  nationalId : String
  phoneLast4 : String
  isAllowed : Bool
  hasTakenExam : Bool
  lockedDomain : String
  lockedAt : Option Time
  deriving DecidableEq

/-- quiz/models.py `Enrollment`. -/
structure Enrollment where
  participantId : Nat
  domain : String
  isAllowed : Bool
  deriving DecidableEq

/-- quiz/models.py `ExamWindow`. -/
structure ExamWindow where
  id : Nat
  domain : String
  startsAt : Time
  endsAt : Time
  isActive : Bool
  deriving DecidableEq

/-- quiz/models.py `Quiz`. -/
structure Quiz where
  id : Nat
  title : String
  isActive : Bool
  perQuestionSeconds : Nat
  deriving DecidableEq

/-- quiz/models.py `Question`. -/
structure Question where
  id : Nat
  quizId : Nat
  order : Nat
  deriving DecidableEq

/-- quiz/models.py `Choice`. -/
structure Choice where
  id : Nat
  questionId : Nat
  isCorrect : Bool
  deriving DecidableEq

/-- quiz/models.py `Attempt`. -/
structure Attempt where
  id : Nat
  participantId : Nat
  quizId : Nat
  domain : String
  sessionKey : String
  startedAt : Time
  finishedAt : Option Time
  currentIndex : Nat
  score : Nat
  isFinished : Bool
  finishedReason : String
  timedOutCount : Nat
  deriving DecidableEq

/-- quiz/models.py `Answer` (unique on (attempt, question)). -/
structure Answer where
  id : Nat
  attemptId : Nat
  questionId : Nat
  selectedChoice : Option Nat
  startedAt : Time
  answeredAt : Option Time
  deriving DecidableEq

/-- The relational store the views operate on, plus id sequences. -/
structure Db where
  participants : List Participant
  enrollments : List Enrollment
  windows : List ExamWindow
  quizzes : List Quiz
  questions : List Question
  choices : List Choice
  attempts : List Attempt
  answers : List Answer
  nextAttemptId : Nat
  nextAnswerId : Nat
  deriving DecidableEq

/-- views.py `VALID_DOMAINS`. -/
def VALID_DOMAINS : List String := ["deputy", "counselor", "activity"]

/-- views.py `QUIZ_TITLE_BY_DOMAIN`: strict domain-to-quiz-title mapping. -/
def QUIZ_TITLE_BY_DOMAIN (d : String) : Option String :=
  if d = "deputy" then some "وكيل"
  else if d = "counselor" then some "موجه طلابي"
  else if d = "activity" then some "رائد نشاط"
  else none

/-- views.py `_AR_DIGITS` translation table applied to one character:
Arabic-Indic and Extended Arabic-Indic digits map to ASCII digits, all other
characters are left unchanged. -/
def arDigitChar (c : Char) : Char :=
  if 0x660 ≤ c.toNat ∧ c.toNat ≤ 0x669 then Char.ofNat (c.toNat - 0x660 + 48)
  else if 0x6F0 ≤ c.toNat ∧ c.toNat ≤ 0x6F9 then Char.ofNat (c.toNat - 0x6F0 + 48)
  else c

/-- ASCII whitespace, as stripped by Python `str.strip` on the inputs this
application sees. -/
def isPySpace (c : Char) : Bool :=
  c == ' ' || c == '\t' || c == '\n' || c == '\r'

/-- views.py `_norm`: `str.strip`. -/
def pyStrip (s : String) : String :=
  String.mk (((s.data.dropWhile isPySpace).reverse.dropWhile isPySpace).reverse)

/-- views.py `_digits`: strip, then translate Arabic digits to ASCII. -/
def pyDigits (s : String) : String :=
  String.mk ((pyStrip s).data.map arDigitChar)

/-- `str.lower` restricted to ASCII (domain strings are ASCII). -/
def asciiLowerChar (c : Char) : Char :=
  if 65 ≤ c.toNat ∧ c.toNat ≤ 90 then Char.ofNat (c.toNat + 32) else c

/-- views.py `_norm(...).lower()` as used on domain strings. -/
def normLower (s : String) : String :=
  String.mk ((pyStrip s).data.map asciiLowerChar)

-- ------------------------------------------------------------------
-- Row lookup / update helpers (Django ORM calls)
-- ------------------------------------------------------------------

/-- `Participant.objects.filter(id=pid).first()`. -/
def findParticipant (db : Db) (pid : Nat) : Option Participant :=
  db.participants.find? (fun p => p.id == pid)

/-- `Attempt.objects.filter(id=aid).first()`. -/
def findAttempt (db : Db) (aid : Nat) : Option Attempt :=
  db.attempts.find? (fun a => a.id == aid)

/-- `Quiz.objects.filter(id=qid).first()`. -/
def findQuiz (db : Db) (qid : Nat) : Option Quiz :=
  db.quizzes.find? (fun q => q.id == qid)

/-- `Answer.objects.filter(attempt=a, question=q).first()`. -/
def findAnswer (db : Db) (attemptId questionId : Nat) : Option Answer :=
  db.answers.find? (fun ans => ans.attemptId == attemptId && ans.questionId == questionId)

/-- Persist a participant row (`p.save(...)`): replace the row with that id. -/
def updateParticipant (db : Db) (p : Participant) : Db :=
  { db with participants := db.participants.map (fun x => if x.id == p.id then p else x) }

/-- Persist an attempt row (`a.save(...)`). -/
def updateAttempt (db : Db) (a : Attempt) : Db :=
  { db with attempts := db.attempts.map (fun x => if x.id == a.id then a else x) }

/-- Persist an answer row (`ans.save(...)`). -/
def updateAnswer (db : Db) (ans : Answer) : Db :=
  { db with answers := db.answers.map (fun x => if x.id == ans.id then ans else x) }

-- ------------------------------------------------------------------
-- Windows (views.py `_get_active_window` / `_is_in_window`)
-- ------------------------------------------------------------------

/-- The filter in views.py `_get_active_window`:
`is_active=True, domain=domain, starts_at__lte=t, ends_at__gte=t`.
Note `ends_at__gte`: the interval is closed at both ends. -/
def windowMatches (w : ExamWindow) (domain : String) (now : Time) : Bool :=
  w.isActive && w.domain == domain && decide (w.startsAt ≤ now) && decide (now ≤ w.endsAt)

/-- views.py `_get_active_window` (the ordering only picks among matches;
existence is what the gate consumes). -/
def getActiveWindow (db : Db) (domain : String) (now : Time) : Option ExamWindow :=
  db.windows.find? (fun w => windowMatches w domain now)

/-- views.py `_is_in_window`. -/
def isInWindow (db : Db) (domain : String) (now : Time) : Bool :=
  db.windows.any (fun w => windowMatches w domain now)

/-- Modelled from the spec: "isActive && startsAt <= now < endsAt" --- the
half-open window condition the claim asserts, kept separate from
`windowMatches` (which is translated from the code) for comparison. -/
def windowOpenSpec (w : ExamWindow) (domain : String) (now : Time) : Bool :=
  w.isActive && w.domain == domain && decide (w.startsAt ≤ now) && decide (now < w.endsAt)

-- ------------------------------------------------------------------
-- Quiz selection (views.py `_get_quiz_for_domain`)
-- ------------------------------------------------------------------

/-- `order_by("-id").first()` over a list of quizzes: the max-id element. -/
def pickLatestQuiz : List Quiz → Option Quiz
  | [] => none
  | q :: qs =>
    match pickLatestQuiz qs with
    | none => some q
    | some r => some (if r.id > q.id then r else q)

/-- views.py `_get_quiz_for_domain` with `active_only=True`. -/
def getQuizForDomain (db : Db) (domain : String) : Option Quiz :=
  match QUIZ_TITLE_BY_DOMAIN (normLower domain) with
  | none => none
  | some title =>
    pickLatestQuiz (db.quizzes.filter (fun q => q.title == title && q.isActive))

-- ------------------------------------------------------------------
-- Question ordering (order_by("order", "id"))
-- ------------------------------------------------------------------

/-- The `(order, id)` comparison used by `order_by("order", "id")`. -/
def questionLe (a b : Question) : Bool :=
  a.order < b.order || (a.order == b.order && a.id ≤ b.id)

def insertSorted (q : Question) : List Question → List Question
  | [] => [q]
  | x :: xs => if questionLe q x then q :: x :: xs else x :: insertSorted q xs

def sortQuestions : List Question → List Question
  | [] => []
  | x :: xs => insertSorted x (sortQuestions xs)

/-- views.py `_attempt_questions_qs`: the quiz's questions in `(order, id)`
order. -/
def orderedQuestions (questions : List Question) (quizId : Nat) : List Question :=
  sortQuestions (questions.filter (fun q => q.quizId == quizId))

/-- Python list slicing `qs[idx:idx+1].first()`. -/
def nthQ : List Question → Nat → Option Question
  | [], _ => none
  | x :: _, 0 => some x
  | _ :: xs, n + 1 => nthQ xs n

/-- Position of the question with the given id in a question list. -/
def idxOfQ (qid : Nat) : List Question → Option Nat
  | [] => none
  | x :: xs => if x.id == qid then some 0 else (idxOfQ qid xs).map (fun n => n + 1)

/-- views.py `_attempt_current_question`. -/
def attemptCurrentQuestion (questions : List Question) (a : Attempt) : Option Question :=
  if a.isFinished then none
  else nthQ (orderedQuestions questions a.quizId) a.currentIndex

/-- views.py `_attempt_total_questions` (a plain count, no ordering). -/
def attemptTotalQuestions (questions : List Question) (quizId : Nat) : Nat :=
  (questions.filter (fun q => q.quizId == quizId)).length

-- ------------------------------------------------------------------
-- Deadline computation (views.py helpers and models.py methods)
-- ------------------------------------------------------------------

/-- The `int(quiz.per_question_seconds or 50)` idiom: 0 falls back to 50;
nothing else is clamped. -/
def effectiveSeconds (quiz : Quiz) : Nat :=
  if quiz.perQuestionSeconds = 0 then 50 else quiz.perQuestionSeconds

/-- views.py `_attempt_deadline` (`_answer_started_at` is `ans.started_at`,
which is always set at row creation). -/
def attemptDeadline (quiz : Quiz) (ans : Answer) : Time :=
  ans.startedAt + (effectiveSeconds quiz : Int)

/-- views.py `_attempt_remaining_seconds`. -/
def attemptRemainingSeconds (quiz : Quiz) (ans : Answer) (now : Time) : Int :=
  max 0 (attemptDeadline quiz ans - now)

/-- views.py `_attempt_is_overdue`. -/
def attemptIsOverdue (a : Attempt) (quiz : Quiz) (ans : Answer) (now : Time) : Bool :=
  !a.isFinished && decide (attemptRemainingSeconds quiz ans now ≤ 0)

/-- models.py `Attempt.current_answer()`. -/
def modelCurrentAnswer (db : Db) (a : Attempt) : Option Answer :=
  match attemptCurrentQuestion db.questions a with
  | none => none
  | some q => findAnswer db a.id q.id

/-- models.py `Attempt.current_deadline()`: `ans.started_at +
timedelta(seconds=int(quiz.per_question_seconds or 50))`. -/
def modelCurrentDeadline (db : Db) (a : Attempt) : Option Time :=
  match findQuiz db a.quizId with
  | none => none
  | some quiz =>
    match modelCurrentAnswer db a with
    | none => none
    | some ans => some (ans.startedAt + (effectiveSeconds quiz : Int))

/-- Modelled from the spec: "seconds value is clamped server-side to a safe
range, e.g. [5, 3600]" --- the clamped deadline the claim asserts, kept
separate from `attemptDeadline` (translated from the code) for comparison. -/
def deadlineSpecClamped (quiz : Quiz) (ans : Answer) : Time :=
  ans.startedAt + (min 3600 (max 5 quiz.perQuestionSeconds) : Int)

-- ------------------------------------------------------------------
-- views.py `_finish_attempt`
-- ------------------------------------------------------------------

/-- views.py `_finish_attempt`: no-op on an already finished attempt. -/
def finishAttempt (a : Attempt) (reason : String) (now : Time) : Attempt :=
  if a.isFinished then a
  else { a with isFinished := true, finishedReason := reason, finishedAt := some now }

-- ------------------------------------------------------------------
-- views.py `_ensure_answer_row`
-- ------------------------------------------------------------------

/-- views.py `_ensure_answer_row`: get-or-create the Answer row for
(attempt, question); `started_at` is fixed at creation (default
`timezone.now`) and never overwritten. -/
def ensureAnswerRow (db : Db) (a : Attempt) (q : Question) (now : Time) : Db × Answer :=
  match findAnswer db a.id q.id with
  | some ans => (db, ans)
  | none =>
    let ans : Answer :=
      { id := db.nextAnswerId, attemptId := a.id, questionId := q.id,
        selectedChoice := none, startedAt := now, answeredAt := none }
    ({ db with answers := db.answers ++ [ans], nextAnswerId := db.nextAnswerId + 1 }, ans)

-- ------------------------------------------------------------------
-- views.py `login_view` (credential phase, lines 361-382)
-- ------------------------------------------------------------------

inductive LoginResult where
  | errMissingNid
  | errMissingLast4
  | errBadCredentials
  | errNotAllowed
  | ok (participantId : Nat)
  deriving DecidableEq

/-- The credential-validation phase of views.py `login_view` POST:
normalize the national id and phone fragment, look the participant up by
national id, enforce the phone-fragment comparison only when the stored
`phone_last4` normalizes to a non-empty string, then the `is_allowed`
check.  (The subsequent enrollment/window/domain-choice flow is a separate
stage and is not part of this definition.) -/
def loginCheck (db : Db) (nationalId phoneLast4 : String) : LoginResult :=
  let nid := pyDigits nationalId
  let last4 := pyDigits phoneLast4
  if nid = "" then .errMissingNid
  else if last4 = "" then .errMissingLast4
  else
    match db.participants.find? (fun p => p.nationalId == nid) with
    | none => .errBadCredentials
    | some p =>
      if pyDigits p.phoneLast4 ≠ "" ∧ pyDigits p.phoneLast4 ≠ last4 then .errBadCredentials
      else if !p.isAllowed then .errNotAllowed
      else .ok p.id

-- ------------------------------------------------------------------
-- views.py `confirm_view` POST (the startOrResumeAttempt gate)
-- ------------------------------------------------------------------

inductive ConfirmResult where
  | notFound
  | redirectChooseDomain
  | errInvalidDomain
  | errLockedOtherDomain
  | errNoActiveQuiz
  | errNoWindow
  | errAlreadyTaken
  | resume (attemptId : Nat)
  | started (attemptId : Nat)
  deriving DecidableEq

/-- `order_by("-started_at", "-id").first()` over attempts: the max by
(startedAt, id). -/
def pickLatestAttempt : List Attempt → Option Attempt
  | [] => none
  | a :: rest =>
    match pickLatestAttempt rest with
    | none => some a
    | some b =>
      some (if b.startedAt > a.startedAt || (b.startedAt == a.startedAt && b.id > a.id)
            then b else a)

/-- `Attempt.objects.filter(participant=p, domain=domain, quiz=quiz,
is_finished=False).order_by("-started_at", "-id").first()`. -/
def latestUnfinishedAttempt (db : Db) (pid : Nat) (domain : String) (quizId : Nat) :
    Option Attempt :=
  pickLatestAttempt (db.attempts.filter
    (fun a => a.participantId == pid && a.domain == domain && a.quizId == quizId
              && !a.isFinished))

/-- views.py `confirm_view`, POST branch (the confirm step).  Checks run in
source order: participant lookup, domain validity, lock compatibility,
strict active-quiz resolution; then the POST section locks an unlocked
participant to the domain *before* the window check, resumes any unfinished
attempt for (participant, domain, quiz) without consulting its stored
`session_key`, refuses on `has_taken_exam`, and otherwise creates the
Attempt and flips `has_taken_exam` inside one transaction.  The
select-for-update re-read of the participant collapses to the same row in
this sequential model. -/
def confirmPost (db : Db) (pid : Nat) (rawDomain : String) (sessionKey : String)
    (now : Time) : Db × ConfirmResult :=
  match findParticipant db pid with
  | none => (db, .notFound)
  | some p =>
    let domain := normLower rawDomain
    if domain = "" then (db, .redirectChooseDomain)
    else if ¬(domain ∈ VALID_DOMAINS) then (db, .errInvalidDomain)
    else
      let locked := normLower p.lockedDomain
      if locked ≠ "" ∧ locked ≠ domain then (db, .errLockedOtherDomain)
      else
        match getQuizForDomain db domain with
        | none => (db, .errNoActiveQuiz)
        | some quiz =>
          let p1 := if locked = "" then { p with lockedDomain := domain, lockedAt := some now }
                    else p
          let db1 := if locked = "" then updateParticipant db p1 else db
          if (getActiveWindow db1 domain now).isNone then (db1, .errNoWindow)
          else
            match latestUnfinishedAttempt db1 pid domain quiz.id with
            | some a => (db1, .resume a.id)
            | none =>
              if p1.hasTakenExam then (db1, .errAlreadyTaken)
              else
                let a : Attempt :=
                  { id := db1.nextAttemptId, participantId := pid, quizId := quiz.id,
                    domain := domain, sessionKey := sessionKey, startedAt := now,
                    finishedAt := none, currentIndex := 0, score := 0,
                    isFinished := false, finishedReason := "normal", timedOutCount := 0 }
                let db2 := { db1 with attempts := db1.attempts ++ [a],
                                      nextAttemptId := db1.nextAttemptId + 1 }
                let db3 := updateParticipant db2 { p1 with hasTakenExam := true }
                (db3, .started a.id)

-- ------------------------------------------------------------------
-- views.py `question_view` (GET and POST in one view, as in the source)
-- ------------------------------------------------------------------

inductive Method where
  | get
  | post
  deriving DecidableEq

inductive QuestionResult where
  | notFound
  | redirectLogin
  | redirectFinish
  | redirectQuestion
  | render (questionId : Nat) (remainingSeconds : Int) (index total : Nat)
  deriving DecidableEq

/-- The tail of `question_view` once the pointer has advanced: if
`current_index` has reached the question count, `_finish_attempt(a,
"normal")` runs and then `a.save(update_fields=["score",
"current_index"])`; the net persisted row carries all the changed fields,
written here as a single row replacement. -/
def qvAdvance (db : Db) (a : Attempt) (now : Time) : Db × QuestionResult :=
  if attemptTotalQuestions db.questions a.quizId ≤ a.currentIndex then
    (updateAttempt db (finishAttempt a "normal" now), .redirectFinish)
  else
    (updateAttempt db a, .redirectQuestion)

/-- The choice lookup in the POST section of `question_view`:
`Choice.objects.filter(id=choice_id, question=q).first()` when not
skipping. -/
def resolveChoice (choices : List Choice) (q : Question) (skip : Bool)
    (choiceId : Option Nat) : Option Choice :=
  if skip then none
  else match choiceId with
    | none => none
    | some cid => choices.find? (fun ch => ch.id == cid && ch.questionId == q.id)

/-- The POST section of `question_view`: resolve the selected choice
against the *current* question, then either the timeout branch or the
normal-recording branch, then advance.  In the timeout branch the code
increments `a.timed_out_count` in memory but the only subsequent save is
`a.save(update_fields=["score", "current_index"])`, so the increment is
not persisted; the persisted row keeps the old `timedOutCount`. -/
def qvSubmit (db : Db) (a : Attempt) (q : Question) (quiz : Quiz) (ans : Answer)
    (skip : Bool) (choiceId : Option Nat) (now : Time) : Db × QuestionResult :=
  let selected : Option Choice := resolveChoice db.choices q skip choiceId
  if attemptIsOverdue a quiz ans now then
    qvAdvance (updateAnswer db { ans with answeredAt := some now, selectedChoice := none })
      { a with currentIndex := a.currentIndex + 1 } now
  else
    let scored := !skip && (selected.map Choice.isCorrect).getD false
    qvAdvance
      (updateAnswer db { ans with answeredAt := some now,
                                  selectedChoice := if skip then none
                                                    else selected.map Choice.id })
      { a with score := a.score + (if scored then 1 else 0),
               currentIndex := a.currentIndex + 1 } now

/-- `question_view` after the current question is resolved: ensure the
Answer row, then the GET-overdue auto-advance (which saves only
`timed_out_count` and `current_index` and leaves the Answer row untouched),
then render (GET) or submit (POST). -/
def qvTimed (db : Db) (a : Attempt) (q : Question) (quiz : Quiz) (method : Method)
    (skip : Bool) (choiceId : Option Nat) (now : Time) : Db × QuestionResult :=
  let pd := ensureAnswerRow db a q now
  if attemptIsOverdue a quiz pd.2 now ∧ method = Method.get then
    (updateAttempt pd.1 { a with timedOutCount := a.timedOutCount + 1,
                                 currentIndex := a.currentIndex + 1 },
     .redirectQuestion)
  else
    match method with
    | .get =>
      (pd.1, .render q.id (attemptRemainingSeconds quiz pd.2 now) (a.currentIndex + 1)
               (attemptTotalQuestions pd.1.questions a.quizId))
    | .post => qvSubmit pd.1 a q quiz pd.2 skip choiceId now

/-- `question_view` after the lock checks: resolve the current question
(finishing with reason "normal" when the list is exhausted), resolve the
quiz row the deadline helpers read. -/
def qvQuestion (db : Db) (a : Attempt) (method : Method) (skip : Bool)
    (choiceId : Option Nat) (now : Time) : Db × QuestionResult :=
  match attemptCurrentQuestion db.questions a with
  | none => (updateAttempt db (finishAttempt a "normal" now), .redirectFinish)
  | some q =>
    match findQuiz db a.quizId with
    | none => (db, .notFound)
    | some quiz => qvTimed db a q quiz method skip choiceId now

/-- The lock section of `question_view`: a participant locked to a
different domain gets the attempt finished with reason "blocked"; an
unlocked participant is locked to the attempt's domain. -/
def qvLocked (db : Db) (a : Attempt) (p : Participant) (method : Method) (skip : Bool)
    (choiceId : Option Nat) (now : Time) : Db × QuestionResult :=
  let dom := normLower a.domain
  let locked := normLower p.lockedDomain
  if locked ≠ "" ∧ locked ≠ dom then
    (updateAttempt db (finishAttempt a "blocked" now), .redirectFinish)
  else
    let db1 := if locked = "" then
        updateParticipant db { p with lockedDomain := dom, lockedAt := some now }
      else db
    qvQuestion db1 a method skip choiceId now

/-- views.py `question_view`.  The browser session supplies `pid`,
`attemptId` and `sessionKey`; the view validates only that the attempt
belongs to `pid` --- `sessionKey` is available but never read (the source
never compares `request.session.session_key` with `attempt.session_key`). -/
def questionView (db : Db) (pid attemptId : Nat) (sessionKey : String) (method : Method)
    (skip : Bool) (choiceId : Option Nat) (now : Time) : Db × QuestionResult :=
  match findAttempt db attemptId with
  | none => (db, .notFound)
  | some a =>
    if a.participantId = pid then
      if a.isFinished then (db, .redirectFinish)
      else
        match findParticipant db a.participantId with
        | none => (db, .notFound)
        | some p => qvLocked db a p method skip choiceId now
    else (db, .redirectLogin)

-- ------------------------------------------------------------------
-- Staff reset operations
-- ------------------------------------------------------------------

inductive StaffResult where
  | notFound
  | done
  deriving DecidableEq

/-- views.py `staff_reset_attempt_view`: inside one transaction, delete the
attempt's Answers, reset the Attempt row in place to a fresh unfinished
state, and clear the participant's `has_taken_exam` / `locked_domain` /
`locked_at`.  The Attempt row itself is kept. -/
def staffResetAttempt (db : Db) (attemptId : Nat) : Db × StaffResult :=
  match findAttempt db attemptId with
  | none => (db, .notFound)
  | some a =>
    let db1 := { db with answers := db.answers.filter (fun ans => !(ans.attemptId == a.id)) }
    let a1 := { a with currentIndex := 0, score := 0, isFinished := false,
                       finishedReason := "normal", finishedAt := none, timedOutCount := 0 }
    let db2 := updateAttempt db1 a1
    let db3 :=
      match findParticipant db2 a.participantId with
      | none => db2
      | some p =>
        updateParticipant db2
          { p with hasTakenExam := false, lockedDomain := "", lockedAt := none }
    (db3, .done)

/-- admin.py `AttemptAdmin.do_reset_view`: delete the attempt's Answers,
delete the Attempt row, and clear the participant's flags via a queryset
update (no transaction wrapper in the source). -/
def adminDoReset (db : Db) (attemptId : Nat) : Db × StaffResult :=
  match findAttempt db attemptId with
  | none => (db, .notFound)
  | some a =>
    let db1 := { db with
      answers := db.answers.filter (fun ans => !(ans.attemptId == a.id)),
      attempts := db.attempts.filter (fun x => !(x.id == a.id)) }
    let db2 := { db1 with
      participants := db1.participants.map (fun p =>
        if p.id == a.participantId then
          { p with hasTakenExam := false, lockedDomain := "", lockedAt := none }
        else p) }
    (db2, .done)

-- ==================================================================
-- Claim C7: window openness condition
-- ==================================================================

def windowC7 : ExamWindow :=
  { id := 1, domain := "deputy", startsAt := 0, endsAt := 10, isActive := true }

def dbC7 : Db :=
  { participants := [], enrollments := [], windows := [windowC7], quizzes := [],
    questions := [], choices := [], attempts := [], answers := [],
    nextAttemptId := 1, nextAnswerId := 1 }

-- ==================================================================
-- Claim C8: deadline computation
-- ==================================================================

def quizC8 : Quiz :=
  { id := 1, title := "وكيل", isActive := true, perQuestionSeconds := 7200 }

def ansC8 : Answer :=
  { id := 1, attemptId := 1, questionId := 1, selectedChoice := none,
    startedAt := 0, answeredAt := none }

def qW8 : Question := { id := 1, quizId := 1, order := 1 }

def quizW8 : Quiz :=
  { id := 1, title := "وكيل", isActive := true, perQuestionSeconds := 50 }

def aW8 : Attempt :=
  { id := 1, participantId := 1, quizId := 1, domain := "deputy", sessionKey := "k",
    startedAt := 0, finishedAt := none, currentIndex := 0, score := 0,
    isFinished := false, finishedReason := "normal", timedOutCount := 0 }

def ansW8 : Answer :=
  { id := 1, attemptId := 1, questionId := 1, selectedChoice := none,
    startedAt := 3, answeredAt := none }

def dbW8 : Db :=
  { participants := [], enrollments := [], windows := [], quizzes := [quizW8],
    questions := [qW8], choices := [], attempts := [aW8], answers := [ansW8],
    nextAttemptId := 2, nextAnswerId := 2 }

-- ==================================================================
-- Claim C9: finishedReason value set
-- ==================================================================

def pC9 : Participant :=
  { id := 1, nationalId := "1000000001", phoneLast4 := "1234", isAllowed := true,
    hasTakenExam := true, lockedDomain := "counselor", lockedAt := some 0 }

def aC9 : Attempt :=
  { id := 1, participantId := 1, quizId := 1, domain := "deputy", sessionKey := "k",
    startedAt := 0, finishedAt := none, currentIndex := 0, score := 0,
    isFinished := false, finishedReason := "normal", timedOutCount := 0 }

def dbC9 : Db :=
  { participants := [pC9], enrollments := [], windows := [], quizzes := [],
    questions := [], choices := [], attempts := [aC9], answers := [],
    nextAttemptId := 2, nextAnswerId := 1 }

def pW10 : Participant :=
  { id := 7, nationalId := "1000000007", phoneLast4 := "", isAllowed := true,
    hasTakenExam := false, lockedDomain := "", lockedAt := none }

def dbW10 : Db :=
  { participants := [pW10], enrollments := [], windows := [], quizzes := [],
    questions := [], choices := [], attempts := [], answers := [],
    nextAttemptId := 1, nextAnswerId := 1 }

-- ==================================================================
-- Claim C1: session-key binding of attempts
-- ==================================================================

def pC1 : Participant :=
  { id := 1, nationalId := "1000000001", phoneLast4 := "1234", isAllowed := true,
    hasTakenExam := true, lockedDomain := "deputy", lockedAt := some 0 }

def quizC1 : Quiz :=
  { id := 1, title := "وكيل", isActive := true, perQuestionSeconds := 50 }

def windowC1 : ExamWindow :=
  { id := 1, domain := "deputy", startsAt := 0, endsAt := 100, isActive := true }

def qC1 : Question := { id := 1, quizId := 1, order := 1 }

def aC1 : Attempt :=
  { id := 9, participantId := 1, quizId := 1, domain := "deputy", sessionKey := "aaa",
    startedAt := 0, finishedAt := none, currentIndex := 0, score := 0,
    isFinished := false, finishedReason := "normal", timedOutCount := 0 }

def dbC1 : Db :=
  { participants := [pC1], enrollments := [], windows := [windowC1],
    quizzes := [quizC1], questions := [qC1], choices := [], attempts := [aC1],
    answers := [], nextAttemptId := 10, nextAnswerId := 1 }

-- ==================================================================
-- Claim C6: no state mutation on gate failure
-- ==================================================================

def pC6 : Participant :=
  { id := 1, nationalId := "1000000001", phoneLast4 := "1234", isAllowed := true,
    hasTakenExam := false, lockedDomain := "", lockedAt := none }

def quizC6 : Quiz :=
  { id := 1, title := "وكيل", isActive := true, perQuestionSeconds := 50 }

def dbC6 : Db :=
  { participants := [pC6], enrollments := [], windows := [], quizzes := [quizC6],
    questions := [], choices := [], attempts := [], answers := [],
    nextAttemptId := 1, nextAnswerId := 1 }

-- ==================================================================
-- Claim C2: staff reset
-- ==================================================================

def pC2 : Participant :=
  { id := 1, nationalId := "1000000001", phoneLast4 := "1234", isAllowed := true,
    hasTakenExam := true, lockedDomain := "deputy", lockedAt := some 0 }

def aC2 : Attempt :=
  { id := 1, participantId := 1, quizId := 1, domain := "deputy", sessionKey := "k",
    startedAt := 0, finishedAt := some 9, currentIndex := 3, score := 2,
    isFinished := true, finishedReason := "normal", timedOutCount := 1 }

def ansC2 : Answer :=
  { id := 1, attemptId := 1, questionId := 1, selectedChoice := some 1,
    startedAt := 0, answeredAt := some 1 }

def dbC2 : Db :=
  { participants := [pC2], enrollments := [], windows := [], quizzes := [],
    questions := [], choices := [], attempts := [aC2], answers := [ansC2],
    nextAttemptId := 2, nextAnswerId := 2 }

-- ==================================================================
-- Claim C4: the timeout transition
-- ==================================================================

def pC4 : Participant :=
  { id := 1, nationalId := "1000000001", phoneLast4 := "1234", isAllowed := true,
    hasTakenExam := true, lockedDomain := "deputy", lockedAt := some 0 }

def quizC4 : Quiz :=
  { id := 1, title := "وكيل", isActive := true, perQuestionSeconds := 50 }

def q1C4 : Question := { id := 1, quizId := 1, order := 1 }

def q2C4 : Question := { id := 2, quizId := 1, order := 2 }

def aC4 : Attempt :=
  { id := 1, participantId := 1, quizId := 1, domain := "deputy", sessionKey := "k",
    startedAt := 0, finishedAt := none, currentIndex := 0, score := 0,
    isFinished := false, finishedReason := "normal", timedOutCount := 0 }

def ansC4 : Answer :=
  { id := 1, attemptId := 1, questionId := 1, selectedChoice := none,
    startedAt := 0, answeredAt := none }

def dbC4 : Db :=
  { participants := [pC4], enrollments := [], windows := [], quizzes := [quizC4],
    questions := [q1C4, q2C4], choices := [], attempts := [aC4], answers := [ansC4],
    nextAttemptId := 2, nextAnswerId := 2 }

-- ==================================================================
-- Claim C3: finalization on exhausting questions
-- ==================================================================

def pC3 : Participant :=
  { id := 1, nationalId := "1000000001", phoneLast4 := "1234", isAllowed := true,
    hasTakenExam := true, lockedDomain := "deputy", lockedAt := some 0 }

def quizC3 : Quiz :=
  { id := 1, title := "وكيل", isActive := true, perQuestionSeconds := 50 }

def aC3 : Attempt :=
  { id := 1, participantId := 1, quizId := 1, domain := "deputy", sessionKey := "k",
    startedAt := 0, finishedAt := none, currentIndex := 0, score := 0,
    isFinished := false, finishedReason := "normal", timedOutCount := 0 }

def dbC3 : Db :=
  { participants := [pC3], enrollments := [], windows := [], quizzes := [quizC3],
    questions := [{ id := 1, quizId := 1, order := 1 }, { id := 2, quizId := 1, order := 2 }],
    choices := [], attempts := [aC3], answers := [],
    nextAttemptId := 2, nextAnswerId := 1 }

def dbC3a : Db := (questionView dbC3 1 1 "k" Method.get false none 0).1

def dbC3b : Db := (questionView dbC3a 1 1 "k" Method.get false none 100).1

def dbC3c : Db := (questionView dbC3b 1 1 "k" Method.get false none 100).1

def dbC3d : Db := (questionView dbC3c 1 1 "k" Method.post true none 110).1

def pW3 : Participant :=
  { id := 1, nationalId := "1000000001", phoneLast4 := "1234", isAllowed := true,
    hasTakenExam := true, lockedDomain := "deputy", lockedAt := some 0 }

def aW3 : Attempt :=
  { id := 1, participantId := 1, quizId := 1, domain := "deputy", sessionKey := "k",
    startedAt := 0, finishedAt := none, currentIndex := 0, score := 0,
    isFinished := false, finishedReason := "normal", timedOutCount := 0 }

def ansW3 : Answer :=
  { id := 1, attemptId := 1, questionId := 1, selectedChoice := none,
    startedAt := 3, answeredAt := none }

def dbW3 : Db :=
  { participants := [pW3], enrollments := [], windows := [], quizzes := [quizW8],
    questions := [qW8], choices := [], attempts := [aW3], answers := [ansW3],
    nextAttemptId := 2, nextAnswerId := 2 }

-- ==================================================================
-- Claim C5: answer uniqueness / immutability invariants
-- ==================================================================

/-- At most one Answer row per (attempt, question) pair: the unique
constraint `unique_together = (("attempt", "question"),)` on `Answer`. -/
def answerKeysUnique (answers : List Answer) : Prop :=
  ∀ x ∈ answers, ∀ y ∈ answers,
    x.attemptId = y.attemptId → x.questionId = y.questionId → x = y

/-- Every answered Answer row belongs to a question strictly before its
attempt's current pointer --- the reason a submission (which only ever
writes the row at the pointer) can never touch an answered row. -/
def answeredBelowPointer (db : Db) : Prop :=
  ∀ a ∈ db.attempts, ∀ ans ∈ db.answers,
    ans.attemptId = a.id → ans.answeredAt.isSome = true →
    ∃ i, idxOfQ ans.questionId (orderedQuestions db.questions a.quizId) = some i ∧
      i < a.currentIndex

/-- Database well-formedness: primary keys are unique, the answer id
sequence is ahead of every stored row, and the (attempt, question) unique
constraint holds. -/
structure WFDb (db : Db) : Prop where
  qids : (db.questions.map Question.id).Nodup
  aids : (db.attempts.map Attempt.id).Nodup
  ansIds : (db.answers.map Answer.id).Nodup
  ansIdsLt : ∀ ans ∈ db.answers, ans.id < db.nextAnswerId
  keys : answerKeysUnique db.answers

/-- What one engine step must establish: the unique constraint still
holds, answered rows still sit below their attempt's pointer, and every
previously answered row survives unchanged. -/
def C5Post (db dbr : Db) : Prop :=
  answerKeysUnique dbr.answers ∧ answeredBelowPointer dbr ∧
  ∀ ans ∈ db.answers, ans.answeredAt.isSome = true → ans ∈ dbr.answers

/-- The Answer row `_ensure_answer_row` creates when none exists. -/
def newAnswerRow (db : Db) (a : Attempt) (qq : Question) (now : Time) : Answer :=
  { id := db.nextAnswerId, attemptId := a.id, questionId := qq.id,
    selectedChoice := none, startedAt := now, answeredAt := none }

/-- The store after `_ensure_answer_row` creates a fresh row. -/
def dbAfterCreate (db : Db) (a : Attempt) (qq : Question) (now : Time) : Db :=
  { db with answers := db.answers ++ [newAnswerRow db a qq now],
            nextAnswerId := db.nextAnswerId + 1 }

def pC5 : Participant :=
  { id := 1, nationalId := "1000000001", phoneLast4 := "1234", isAllowed := true,
    hasTakenExam := true, lockedDomain := "deputy", lockedAt := some 0 }

def quizC5 : Quiz :=
  { id := 1, title := "وكيل", isActive := true, perQuestionSeconds := 50 }

def aC5 : Attempt :=
  { id := 1, participantId := 1, quizId := 1, domain := "deputy", sessionKey := "k",
    startedAt := 0, finishedAt := none, currentIndex := 0, score := 0,
    isFinished := false, finishedReason := "normal", timedOutCount := 0 }

def dbC5 : Db :=
  { participants := [pC5], enrollments := [], windows := [], quizzes := [quizC5],
    questions := [{ id := 1, quizId := 1, order := 1 }, { id := 2, quizId := 1, order := 2 }],
    choices := [{ id := 1, questionId := 1, isCorrect := true },
                { id := 2, questionId := 2, isCorrect := true }],
    attempts := [aC5], answers := [],
    nextAttemptId := 2, nextAnswerId := 1 }

def dbC5a : Db := (questionView dbC5 1 1 "k" Method.get false none 0).1

def dbC5b : Db := (questionView dbC5a 1 1 "k" Method.post false (some 1) 5).1

def dbC5c : Db := (questionView dbC5b 1 1 "k" Method.post false (some 1) 6).1

-- ------------------------------------------------------------------
-- Small helper lemmas about the row updates
-- ------------------------------------------------------------------

@[simp] theorem updateParticipant_attempts (db : Db) (p : Participant) :
    (updateParticipant db p).attempts = db.attempts := rfl

@[simp] theorem updateParticipant_answers (db : Db) (p : Participant) :
    (updateParticipant db p).answers = db.answers := rfl

@[simp] theorem updateParticipant_questions (db : Db) (p : Participant) :
    (updateParticipant db p).questions = db.questions := rfl

@[simp] theorem updateParticipant_quizzes (db : Db) (p : Participant) :
    (updateParticipant db p).quizzes = db.quizzes := rfl

@[simp] theorem updateAttempt_answers (db : Db) (a : Attempt) :
    (updateAttempt db a).answers = db.answers := rfl

@[simp] theorem updateAttempt_questions (db : Db) (a : Attempt) :
    (updateAttempt db a).questions = db.questions := rfl

@[simp] theorem updateAttempt_participants (db : Db) (a : Attempt) :
    (updateAttempt db a).participants = db.participants := rfl

@[simp] theorem updateAnswer_attempts (db : Db) (ans : Answer) :
    (updateAnswer db ans).attempts = db.attempts := rfl

@[simp] theorem updateAnswer_questions (db : Db) (ans : Answer) :
    (updateAnswer db ans).questions = db.questions := rfl

@[simp] theorem updateAnswer_participants (db : Db) (ans : Answer) :
    (updateAnswer db ans).participants = db.participants := rfl

@[simp] theorem updateAnswer_choices (db : Db) (ans : Answer) :
    (updateAnswer db ans).choices = db.choices := rfl

/-- Replacing the row whose key matches `b` leaves a row with a different
key untouched. -/
theorem mem_replace_of_ne {α : Type} (key : α → Nat) {l : List α} {b x : α}
    (hx : x ∈ l) (hne : key x ≠ key b) :
    x ∈ l.map (fun y => if key y == key b then b else y) := by
  have : (fun y => if key y == key b then b else y) x = x := by
    simp [hne]
  exact this ▸ List.mem_map_of_mem _ hx

/-- Membership in a keyed row replacement, characterized. -/
theorem mem_replace_iff {α : Type} (key : α → Nat) {l : List α} {b x : α}
    (hx : x ∈ l.map (fun y => if key y == key b then b else y)) :
    x = b ∨ (x ∈ l ∧ key x ≠ key b) := by
  rcases List.mem_map.mp hx with ⟨y, hy, hxy⟩
  by_cases h : key y == key b
  · left
    simp [h] at hxy
    exact hxy.symm
  · right
    simp [h] at hxy
    subst hxy
    simp at h
    exact ⟨hy, h⟩

/-- Looking up a row by id after replacing the row with that id. -/
theorem find_replace_by_key {α : Type} (key : α → Nat) {l : List α} {i : Nat} {a : α}
    (b : α) (hf : l.find? (fun x => key x == i) = some a) (hb : key b = key a) :
    (l.map (fun x => if key x == key b then b else x)).find? (fun x => key x == i) =
      some b := by
  have hai : key a = i := by
    have := List.find?_some hf
    simpa using this
  induction l with
  | nil => simp at hf
  | cons x xs ih =>
    by_cases hx : key x = i
    · have hxa : x = a := by
        rw [List.find?_cons_of_pos] at hf
        · simpa using hf
        · simpa using hx
      simp only [List.map_cons]
      rw [if_pos (by simp [hxa, hb, hai, hx])]
      rw [List.find?_cons_of_pos]
      simp [hb, hai]
    · have hf' : xs.find? (fun x => key x == i) = some a := by
        rw [List.find?_cons_of_neg] at hf
        · exact hf
        · simpa using hx
      simp only [List.map_cons]
      rw [if_neg (by simpa [hb, hai] using hx)]
      rw [List.find?_cons_of_neg]
      · exact ih hf'
      · simpa using hx

/-- A double filter with complementary predicates is empty. -/
theorem filter_not_filter_eq_nil {α : Type} (p : α → Bool) (l : List α) :
    (l.filter (fun x => !(p x))).filter p = [] := by
  induction l with
  | nil => rfl
  | cons x xs ih =>
    by_cases h : p x <;> simp [List.filter_cons, h, ih]

/-- C7 counterexample: at `now = endsAt` the code's gate still reports the
window open (`ends_at__gte=t` filter), while the claim's half-open
condition `startsAt <= now < endsAt` reports it closed --- so the gate does
not decide openness by the claimed condition. -/
theorem c7_counterexample :
    isInWindow dbC7 "deputy" 10 = true ∧
    dbC7.windows.any (fun w => windowOpenSpec w "deputy" 10) = false := by
  decide

/-- C7 amended: the gate considers a window open exactly when `isActive`
and `startsAt <= now <= endsAt` --- a closed interval, so the exam is still
startable at the very instant `endsAt`. -/
theorem c7_amended (db : Db) (d : String) (now : Time) :
    isInWindow db d now = true ↔
      ∃ w ∈ db.windows,
        w.isActive = true ∧ w.domain = d ∧ w.startsAt ≤ now ∧ now ≤ w.endsAt := by
  simp [isInWindow, windowMatches, List.any_eq_true, and_assoc]

/-- C8 counterexample: with `per_question_seconds = 7200` the code's
deadline is `startedAt + 7200`; the claimed clamp to [5, 3600] would give
`startedAt + 3600`.  The code performs no clamping. -/
theorem c8_counterexample :
    attemptDeadline quizC8 ansC8 = 7200 ∧
    deadlineSpecClamped quizC8 ansC8 = 3600 ∧
    attemptDeadline quizC8 ansC8 ≠ deadlineSpecClamped quizC8 ansC8 := by
  decide

/-- C8 amended: the deadline is `answer.startedAt + perQuestionSeconds`
where a zero seconds value falls back to 50 and no other clamping is
applied; the views-layer deadline agrees with models.py
`Attempt.current_deadline`, and the remaining-seconds value is
`max 0 (deadline - now)`. -/
theorem c8_amended (db : Db) (a : Attempt) (q : Question) (quiz : Quiz) (ans : Answer)
    (now : Time)
    (hq : attemptCurrentQuestion db.questions a = some q)
    (hquiz : findQuiz db a.quizId = some quiz)
    (hans : findAnswer db a.id q.id = some ans) :
    modelCurrentDeadline db a = some (attemptDeadline quiz ans) ∧
    attemptRemainingSeconds quiz ans now = max 0 (attemptDeadline quiz ans - now) ∧
    attemptDeadline quiz ans =
      ans.startedAt +
        ((if quiz.perQuestionSeconds = 0 then 50 else quiz.perQuestionSeconds : Nat) : Int) := by
  refine ⟨?_, rfl, rfl⟩
  simp [modelCurrentDeadline, modelCurrentAnswer, hq, hquiz, hans, attemptDeadline]

/-- C8 witness: the amended deadline facts evaluated at a concrete store. -/
theorem c8_witness :
    modelCurrentDeadline dbW8 aW8 = some (attemptDeadline quizW8 ansW8) ∧
    attemptRemainingSeconds quizW8 ansW8 10 = max 0 (attemptDeadline quizW8 ansW8 - 10) ∧
    attemptDeadline quizW8 ansW8 =
      ansW8.startedAt +
        ((if quizW8.perQuestionSeconds = 0 then 50 else quizW8.perQuestionSeconds : Nat) : Int) :=
  c8_amended dbW8 aW8 qW8 quizW8 ansW8 10 (by decide) (by decide) (by decide)

/-- C9 evidence: when a participant locked to "counselor" reaches
`question_view` with an in-progress "deputy" attempt, the view calls
`_finish_attempt(a, reason="blocked")` and the stored `finished_reason`
becomes "blocked" --- a value outside the model's own
`FINISH_REASON_CHOICES = {normal, timeout, forced}`. -/
theorem c9_code_bug_evidence :
    (findAttempt (questionView dbC9 1 1 "k" Method.get false none 5).1 1).map
        Attempt.finishedReason = some "blocked" ∧
    ¬("blocked" ∈ ["normal", "timeout", "forced"]) := by
  decide

-- ==================================================================
-- Claim C10: phone fragment check only when a fragment is stored
-- ==================================================================

/-- C10: in `login_view`, the phone-fragment comparison is guarded by
`if _digits(p.phone_last4) and ...`: when the stored `phone_last4`
normalizes to the empty string, any submitted fragment that normalizes to a
non-empty string passes the credential check for a matching, allowed
participant. -/
theorem c10_phone_check_skipped (db : Db) (nid last4 : String) (p : Participant)
    (hnid : pyDigits nid ≠ "")
    (hl4 : pyDigits last4 ≠ "")
    (hfind : db.participants.find? (fun x => x.nationalId == pyDigits nid) = some p)
    (hstored : pyDigits p.phoneLast4 = "")
    (hallowed : p.isAllowed = true) :
    loginCheck db nid last4 = LoginResult.ok p.id := by
  simp [loginCheck, hnid, hl4, hfind, hstored, hallowed]

/-- C10 witness: a participant with no stored fragment logs in with an
arbitrary non-empty fragment. -/
theorem c10_witness : loginCheck dbW10 "1000000007" "9999" = LoginResult.ok 7 :=
  c10_phone_check_skipped dbW10 "1000000007" "9999" pW10 (by decide) (by decide)
    (by decide) (by decide) (by decide)

/-- C1 counterexample: the attempt on record is bound to session key "aaa";
a confirm POST arriving from session "bbb" is *not* refused --- it resumes
attempt 9 (the claim requires an "exam already running elsewhere" error)
--- and a `question_view` request from session "bbb" serves the question
normally: no access path re-validates the stored session key. -/
theorem c1_counterexample :
    (confirmPost dbC1 1 "deputy" "bbb" 5).2 = ConfirmResult.resume 9 ∧
    (confirmPost dbC1 1 "deputy" "bbb" 5).1 = dbC1 ∧
    (questionView dbC1 1 9 "bbb" Method.get false none 5).2 =
      QuestionResult.render 1 50 1 1 := by
  decide

/-- C1 amended: `confirm_view` resumes any unfinished attempt for the
(participant, domain, quiz) triple regardless of which session created it
(rebinding is session-state only; the database is unchanged and no new
Attempt is created), and `question_view` validates only the participant id:
its outcome is identical for every value of the browser session key. -/
theorem c1_amended (db : Db) (pid : Nat) (rawDomain : String) (now : Time)
    (p : Participant) (quiz : Quiz) (a : Attempt) (d : String)
    (hp : findParticipant db pid = some p)
    (hnd : normLower rawDomain = d)
    (hd1 : d ≠ "")
    (hd2 : d ∈ VALID_DOMAINS)
    (hlock : normLower p.lockedDomain = d)
    (hquiz : getQuizForDomain db d = some quiz)
    (hwin : (getActiveWindow db d now).isNone = false)
    (hatt : latestUnfinishedAttempt db pid d quiz.id = some a) :
    (∀ sk, confirmPost db pid rawDomain sk now = (db, ConfirmResult.resume a.id)) ∧
    (∀ k1 k2 method skip cid,
      questionView db pid a.id k1 method skip cid now =
        questionView db pid a.id k2 method skip cid now) := by
  constructor
  · intro sk
    unfold confirmPost
    rw [hp]
    simp only [hnd]
    rw [if_neg hd1, if_neg (by simp [hd2])]
    rw [hlock]
    rw [if_neg (by simp)]
    rw [hquiz]
    simp only [if_neg hd1]
    rw [hwin]
    simp only [Bool.false_eq_true, if_false]
    rw [hatt]
  · intro k1 k2 method skip cid
    rfl

/-- C1 witness: the amended behavior evaluated at the concrete store with
two different session keys. -/
theorem c1_witness :
    confirmPost dbC1 1 "deputy" "xyz" 5 = (dbC1, ConfirmResult.resume 9) ∧
    questionView dbC1 1 9 "k1" Method.get false none 5 =
      questionView dbC1 1 9 "k2" Method.get false none 5 := by
  have h := c1_amended dbC1 1 "deputy" 5 pC1 quizC1 aC1 "deputy" (by decide) (by decide)
    (by decide) (by decide) (by decide) (by decide) (by decide) (by decide)
  exact ⟨h.1 "xyz", h.2 "k1" "k2" Method.get false none⟩

/-- C6 counterexample: with no open window, the confirm POST is refused
("no active window"), yet the previously unlocked participant now has
`lockedDomain = "deputy"` --- the gate failure did mutate persistent
state, because the POST locks the domain before the window check. -/
theorem c6_counterexample :
    (confirmPost dbC6 1 "deputy" "k" 5).2 = ConfirmResult.errNoWindow ∧
    (findParticipant (confirmPost dbC6 1 "deputy" "k" 5).1 1).map
        Participant.lockedDomain = some "deputy" ∧
    pC6.lockedDomain = "" := by
  decide

/-- C6 amended: gate failures checked before the POST lock step (empty or
invalid domain, locked to another domain, no active quiz) leave the store
untouched; the no-window and already-taken refusals leave the attempts
table and `hasTakenExam` untouched but have already locked a previously
unlocked participant to the requested domain. -/
theorem c6_amended (db : Db) (pid : Nat) (rawDomain sk : String) (now : Time)
    (p : Participant) (hp : findParticipant db pid = some p) :
    ((confirmPost db pid rawDomain sk now).2 = ConfirmResult.redirectChooseDomain ∨
     (confirmPost db pid rawDomain sk now).2 = ConfirmResult.errInvalidDomain ∨
     (confirmPost db pid rawDomain sk now).2 = ConfirmResult.errLockedOtherDomain ∨
     (confirmPost db pid rawDomain sk now).2 = ConfirmResult.errNoActiveQuiz →
      (confirmPost db pid rawDomain sk now).1 = db) ∧
    ((confirmPost db pid rawDomain sk now).2 = ConfirmResult.errNoWindow ∨
     (confirmPost db pid rawDomain sk now).2 = ConfirmResult.errAlreadyTaken →
      (confirmPost db pid rawDomain sk now).1.attempts = db.attempts ∧
      ∃ p', findParticipant (confirmPost db pid rawDomain sk now).1 pid = some p' ∧
        p'.hasTakenExam = p.hasTakenExam ∧
        (if normLower p.lockedDomain = "" then
          p'.lockedDomain = normLower rawDomain ∧ p'.lockedAt = some now
         else p' = p)) := by
  by_cases h1 : normLower rawDomain = ""
  · have hr : confirmPost db pid rawDomain sk now = (db, .redirectChooseDomain) := by
      unfold confirmPost
      simp only [hp]
      simp [h1]
    rw [hr]
    simp [hp]
  · by_cases h2 : normLower rawDomain ∈ VALID_DOMAINS
    · by_cases h3 : normLower p.lockedDomain ≠ "" ∧ normLower p.lockedDomain ≠ normLower rawDomain
      · have hr : confirmPost db pid rawDomain sk now = (db, .errLockedOtherDomain) := by
          unfold confirmPost
          simp only [hp]
          rw [if_neg h1, if_neg (by simpa using h2), if_pos h3]
        rw [hr]
        simp [hp]
      · rcases hq : getQuizForDomain db (normLower rawDomain) with _ | quiz
        · have hr : confirmPost db pid rawDomain sk now = (db, .errNoActiveQuiz) := by
            unfold confirmPost
            simp only [hp]
            rw [if_neg h1, if_neg (by simpa using h2), if_neg h3, hq]
          rw [hr]
          simp [hp]
        · -- quiz resolved; the POST locks an unlocked participant, then the
          -- window / resume / already-taken sequence runs
          by_cases hl : normLower p.lockedDomain = ""
          · set p1 : Participant :=
              { p with lockedDomain := normLower rawDomain, lockedAt := some now } with hp1
            have hfind1 : findParticipant (updateParticipant db p1) pid = some p1 := by
              unfold findParticipant updateParticipant
              exact find_replace_by_key Participant.id p1 hp rfl
            have hbody : confirmPost db pid rawDomain sk now =
                (if (getActiveWindow (updateParticipant db p1) (normLower rawDomain) now).isNone
                 then ((updateParticipant db p1), .errNoWindow)
                 else
                   match latestUnfinishedAttempt (updateParticipant db p1) pid
                       (normLower rawDomain) quiz.id with
                   | some a => ((updateParticipant db p1), .resume a.id)
                   | none =>
                     if p1.hasTakenExam then ((updateParticipant db p1), .errAlreadyTaken)
                     else
                       let a : Attempt :=
                         { id := (updateParticipant db p1).nextAttemptId,
                           participantId := pid, quizId := quiz.id,
                           domain := normLower rawDomain, sessionKey := sk,
                           startedAt := now, finishedAt := none, currentIndex := 0,
                           score := 0, isFinished := false, finishedReason := "normal",
                           timedOutCount := 0 }
                       let db2 := { (updateParticipant db p1) with
                         attempts := (updateParticipant db p1).attempts ++ [a],
                         nextAttemptId := (updateParticipant db p1).nextAttemptId + 1 }
                       let db3 := updateParticipant db2 { p1 with hasTakenExam := true }
                       (db3, .started a.id)) := by
              unfold confirmPost
              simp only [hp]
              rw [if_neg h1, if_neg (by simpa using h2), if_neg h3, hq]
              simp only [if_pos hl, hp1]
            rw [hbody]
            split
            · refine ⟨by simp, fun _ => ⟨by simp, p1, hfind1, rfl, ?_⟩⟩
              simp [hl, hp1]
            · split
              · exact ⟨by simp, by simp⟩
              · split
                · refine ⟨by simp, fun _ => ⟨by simp, p1, hfind1, rfl, ?_⟩⟩
                  simp [hl, hp1]
                · exact ⟨by simp, by simp⟩
          · have hbody : confirmPost db pid rawDomain sk now =
                (if (getActiveWindow db (normLower rawDomain) now).isNone
                 then (db, .errNoWindow)
                 else
                   match latestUnfinishedAttempt db pid (normLower rawDomain) quiz.id with
                   | some a => (db, .resume a.id)
                   | none =>
                     if p.hasTakenExam then (db, .errAlreadyTaken)
                     else
                       let a : Attempt :=
                         { id := db.nextAttemptId, participantId := pid, quizId := quiz.id,
                           domain := normLower rawDomain, sessionKey := sk,
                           startedAt := now, finishedAt := none, currentIndex := 0,
                           score := 0, isFinished := false, finishedReason := "normal",
                           timedOutCount := 0 }
                       let db2 := { db with attempts := db.attempts ++ [a],
                                            nextAttemptId := db.nextAttemptId + 1 }
                       let db3 := updateParticipant db2 { p with hasTakenExam := true }
                       (db3, .started a.id)) := by
              unfold confirmPost
              simp only [hp]
              rw [if_neg h1, if_neg (by simpa using h2), if_neg h3, hq]
              simp only [if_neg hl]
            rw [hbody]
            split
            · refine ⟨by simp, fun _ => ⟨rfl, p, hp, rfl, ?_⟩⟩
              simp [hl]
            · split
              · exact ⟨by simp, by simp⟩
              · split
                · refine ⟨by simp, fun _ => ⟨rfl, p, hp, rfl, ?_⟩⟩
                  simp [hl]
                · exact ⟨by simp, by simp⟩
    · have hr : confirmPost db pid rawDomain sk now = (db, .errInvalidDomain) := by
        unfold confirmPost
        simp only [hp]
        rw [if_neg h1, if_pos (by simpa using h2)]
      rw [hr]
      simp [hp]

/-- C6 witness: the amended statement evaluated at the concrete
no-window store. -/
theorem c6_witness :
    ((confirmPost dbC6 1 "deputy" "k" 5).2 = ConfirmResult.redirectChooseDomain ∨
     (confirmPost dbC6 1 "deputy" "k" 5).2 = ConfirmResult.errInvalidDomain ∨
     (confirmPost dbC6 1 "deputy" "k" 5).2 = ConfirmResult.errLockedOtherDomain ∨
     (confirmPost dbC6 1 "deputy" "k" 5).2 = ConfirmResult.errNoActiveQuiz →
      (confirmPost dbC6 1 "deputy" "k" 5).1 = dbC6) ∧
    ((confirmPost dbC6 1 "deputy" "k" 5).2 = ConfirmResult.errNoWindow ∨
     (confirmPost dbC6 1 "deputy" "k" 5).2 = ConfirmResult.errAlreadyTaken →
      (confirmPost dbC6 1 "deputy" "k" 5).1.attempts = dbC6.attempts ∧
      ∃ p', findParticipant (confirmPost dbC6 1 "deputy" "k" 5).1 1 = some p' ∧
        p'.hasTakenExam = pC6.hasTakenExam ∧
        (if normLower pC6.lockedDomain = "" then
          p'.lockedDomain = normLower "deputy" ∧ p'.lockedAt = some 5
         else p' = pC6)) :=
  c6_amended dbC6 1 "deputy" "k" 5 pC6 (by decide)

/-- C2 counterexample: after the staff reset view (views.py
`staff_reset_attempt_view`) completes, the Attempt row is still present
(reset in place, not deleted), contradicting "zero Attempt rows remain". -/
theorem c2_counterexample :
    (staffResetAttempt dbC2 1).2 = StaffResult.done ∧
    ((staffResetAttempt dbC2 1).1.attempts.filter (fun x => x.id == 1)).length = 1 := by
  decide

/-- C2 amended: the views.py staff reset deletes the attempt's Answers,
keeps the Attempt row but resets it to a fresh unfinished state, and clears
the participant's flags (all inside one transaction); the admin-console
reset (admin.py `do_reset_view`) deletes both the Answers and the Attempt
row and clears the participant's flags (with no transaction wrapper). -/
theorem c2_amended (db : Db) (aid : Nat) (a : Attempt) (p : Participant)
    (ha : findAttempt db aid = some a)
    (hp : findParticipant db a.participantId = some p) :
    (((staffResetAttempt db aid).1.answers.filter (fun x => x.attemptId == aid)) = [] ∧
     findAttempt (staffResetAttempt db aid).1 aid =
       some { a with currentIndex := 0, score := 0, isFinished := false,
                     finishedReason := "normal", finishedAt := none, timedOutCount := 0 } ∧
     (∃ p', findParticipant (staffResetAttempt db aid).1 a.participantId = some p' ∧
       p'.hasTakenExam = false ∧ p'.lockedDomain = "" ∧ p'.lockedAt = none)) ∧
    (((adminDoReset db aid).1.answers.filter (fun x => x.attemptId == aid)) = [] ∧
     ((adminDoReset db aid).1.attempts.filter (fun x => x.id == aid)) = [] ∧
     ∀ p' ∈ (adminDoReset db aid).1.participants, p'.id = a.participantId →
       p'.hasTakenExam = false ∧ p'.lockedDomain = "" ∧ p'.lockedAt = none) := by
  have haid : a.id = aid := by simpa using List.find?_some ha
  subst haid
  constructor
  · unfold staffResetAttempt
    rw [ha]
    simp only []
    have hp2 : findParticipant
        (updateAttempt
          { db with answers := db.answers.filter (fun ans => !(ans.attemptId == a.id)) }
          { a with currentIndex := 0, score := 0, isFinished := false,
                   finishedReason := "normal", finishedAt := none, timedOutCount := 0 })
        a.participantId = some p := hp
    rw [hp2]
    refine ⟨?_, ?_, ?_⟩
    · exact filter_not_filter_eq_nil (fun x => x.attemptId == a.id) db.answers
    · exact find_replace_by_key Attempt.id _ ha rfl
    · refine ⟨{ p with hasTakenExam := false, lockedDomain := "", lockedAt := none },
        ?_, rfl, rfl, rfl⟩
      exact find_replace_by_key Participant.id _ hp rfl
  · unfold adminDoReset
    rw [ha]
    refine ⟨?_, ?_, ?_⟩
    · exact filter_not_filter_eq_nil (fun x => x.attemptId == a.id) db.answers
    · exact filter_not_filter_eq_nil (fun x => x.id == a.id) db.attempts
    · intro p' hp' hid
      rcases List.mem_map.mp hp' with ⟨y, _, hy⟩
      by_cases h : y.id == a.participantId
      · rw [if_pos h] at hy
        rw [← hy]
        exact ⟨rfl, rfl, rfl⟩
      · rw [if_neg h] at hy
        subst hy
        simp [hid] at h
/-- C2 witness: the amended reset behavior at the concrete store. -/
theorem c2_witness :
    (((staffResetAttempt dbC2 1).1.answers.filter (fun x => x.attemptId == 1)) = [] ∧
     findAttempt (staffResetAttempt dbC2 1).1 1 =
       some { aC2 with currentIndex := 0, score := 0, isFinished := false,
                       finishedReason := "normal", finishedAt := none,
                       timedOutCount := 0 } ∧
     (∃ p', findParticipant (staffResetAttempt dbC2 1).1 aC2.participantId = some p' ∧
       p'.hasTakenExam = false ∧ p'.lockedDomain = "" ∧ p'.lockedAt = none)) ∧
    (((adminDoReset dbC2 1).1.answers.filter (fun x => x.attemptId == 1)) = [] ∧
     ((adminDoReset dbC2 1).1.attempts.filter (fun x => x.id == 1)) = [] ∧
     ∀ p' ∈ (adminDoReset dbC2 1).1.participants, p'.id = aC2.participantId →
       p'.hasTakenExam = false ∧ p'.lockedDomain = "" ∧ p'.lockedAt = none) :=
  c2_amended dbC2 1 aC2 pC2 (by decide) (by decide)

/-- C4 counterexample: a GET arriving 100s after the question started (50s
budget) performs the auto-advance --- `timedOutCount` becomes 1 and the
pointer moves --- but the Answer row is untouched: `answeredAt` stays null
and is *not* stamped with now, contrary to the claim that any inbound
request records `answeredAt = now` on the timed-out Answer. -/
theorem c4_counterexample :
    (findAnswer (questionView dbC4 1 1 "k" Method.get false none 100).1 1 1).map
        Answer.answeredAt = some none ∧
    (findAttempt (questionView dbC4 1 1 "k" Method.get false none 100).1 1).map
        Attempt.timedOutCount = some 1 ∧
    (questionView dbC4 1 1 "k" Method.get false none 100).2 =
      QuestionResult.redirectQuestion := by
  decide

/-- C4 amended: for an in-progress attempt whose current question's
deadline has elapsed, a GET performs the auto-advance persisting only
`timedOutCount + 1` and `currentIndex + 1` (the Answer row is untouched);
a POST stamps the Answer with `answeredAt = now`, `selectedChoice = null`
and advances the pointer, but its `timedOutCount` increment is not
persisted (the save lists only score and current_index); the score is
unchanged on both paths. -/
theorem c4_amended (db : Db) (pid aid : Nat) (sk : String) (skip : Bool)
    (cid : Option Nat) (now : Time) (a : Attempt) (p : Participant) (q : Question)
    (quiz : Quiz) (ans : Answer)
    (h1 : findAttempt db aid = some a)
    (h2 : a.participantId = pid)
    (h3 : a.isFinished = false)
    (h4 : findParticipant db a.participantId = some p)
    (h5 : normLower p.lockedDomain = normLower a.domain)
    (h6 : normLower a.domain ≠ "")
    (h7 : attemptCurrentQuestion db.questions a = some q)
    (h8 : findQuiz db a.quizId = some quiz)
    (h9 : findAnswer db a.id q.id = some ans)
    (h10 : attemptIsOverdue a quiz ans now = true)
    (h11 : a.currentIndex + 1 < attemptTotalQuestions db.questions a.quizId) :
    questionView db pid aid sk Method.get skip cid now =
      (updateAttempt db { a with timedOutCount := a.timedOutCount + 1,
                                 currentIndex := a.currentIndex + 1 },
       QuestionResult.redirectQuestion) ∧
    questionView db pid aid sk Method.post skip cid now =
      (updateAttempt (updateAnswer db { ans with answeredAt := some now,
                                                 selectedChoice := none })
         { a with currentIndex := a.currentIndex + 1 },
       QuestionResult.redirectQuestion) := by
  have hpre : ∀ method, questionView db pid aid sk method skip cid now =
      qvTimed db a q quiz method skip cid now := by
    intro method
    unfold questionView
    simp only [h1]
    rw [if_pos h2, h3]
    simp only [Bool.false_eq_true, if_false]
    simp only [h4]
    unfold qvLocked
    rw [if_neg (by rw [h5]; simp), if_neg (by rw [h5]; exact h6)]
    unfold qvQuestion
    simp only []
    simp only [h7, h8]
  have hens : ensureAnswerRow db a q now = (db, ans) := by
    unfold ensureAnswerRow
    rw [h9]
  constructor
  · rw [hpre Method.get]
    unfold qvTimed
    rw [hens]
    simp only [h10]
    simp
  · rw [hpre Method.post]
    unfold qvTimed
    rw [hens]
    simp only [h10]
    simp only [true_and, reduceCtorEq, if_false]
    unfold qvSubmit
    rw [if_pos h10]
    unfold qvAdvance
    rw [if_neg (by simp; omega)]

/-- C4 witness: the amended GET/POST timeout behavior at the concrete
store. -/
theorem c4_witness :
    questionView dbC4 1 1 "k" Method.get false none 100 =
      (updateAttempt dbC4 { aC4 with timedOutCount := aC4.timedOutCount + 1,
                                     currentIndex := aC4.currentIndex + 1 },
       QuestionResult.redirectQuestion) ∧
    questionView dbC4 1 1 "k" Method.post false none 100 =
      (updateAttempt (updateAnswer dbC4 { ansC4 with answeredAt := some 100,
                                                     selectedChoice := none })
         { aC4 with currentIndex := aC4.currentIndex + 1 },
       QuestionResult.redirectQuestion) :=
  c4_amended dbC4 1 1 "k" false none 100 aC4 pC4 q1C4 quizC4 ansC4 (by decide)
    (by decide) (by decide) (by decide) (by decide) (by decide) (by decide) (by decide)
    (by decide) (by decide) (by decide)

/-- C3 counterexample: a reachable run --- question 1 times out (GET at
t=100 records the timeout, `timedOutCount = 1`), question 2 is answered by
an explicit skip at t=110 --- exhausts the questions and finishes the
attempt; the stored `finishedReason` is "normal" even though
`timedOutCount = 1 > 0`, where the claim requires "timeout". -/
theorem c3_counterexample :
    (findAttempt dbC3d 1).map
        (fun a => (a.isFinished, a.finishedReason, a.timedOutCount, a.finishedAt)) =
      some (true, "normal", 1, some 110) := by
  decide

/-- Once an attempt is finished, `question_view` only redirects to the
finish page and leaves the store unchanged. -/
theorem questionView_finished (db : Db) (pid aid : Nat) (a : Attempt)
    (h1 : findAttempt db aid = some a) (h2 : a.participantId = pid)
    (h3 : a.isFinished = true) (sk : String) (method : Method) (skip : Bool)
    (cid : Option Nat) (now : Time) :
    questionView db pid aid sk method skip cid now =
      (db, QuestionResult.redirectFinish) := by
  unfold questionView
  simp only [h1]
  rw [if_pos h2, h3]
  simp

/-- C3 amended: whenever a submission makes `currentIndex` reach the
question count, the attempt becomes Finished with `finishedReason =
"normal"` regardless of `timedOutCount`, `finishedAt` is stamped with the
current time, and thereafter every `question_view` request returns the
finish redirect without touching the store (score frozen). -/
theorem c3_amended (db : Db) (pid aid : Nat) (sk : String) (skip : Bool)
    (cid : Option Nat) (now : Time) (a : Attempt) (p : Participant) (q : Question)
    (quiz : Quiz) (ans : Answer)
    (h1 : findAttempt db aid = some a)
    (h2 : a.participantId = pid)
    (h3 : a.isFinished = false)
    (h4 : findParticipant db a.participantId = some p)
    (h5 : normLower p.lockedDomain = normLower a.domain)
    (h6 : normLower a.domain ≠ "")
    (h7 : attemptCurrentQuestion db.questions a = some q)
    (h8 : findQuiz db a.quizId = some quiz)
    (h9 : findAnswer db a.id q.id = some ans)
    (h10 : attemptIsOverdue a quiz ans now = false)
    (h11 : attemptTotalQuestions db.questions a.quizId ≤ a.currentIndex + 1) :
    ∃ a', findAttempt (questionView db pid aid sk Method.post skip cid now).1 aid = some a' ∧
      a'.isFinished = true ∧ a'.finishedReason = "normal" ∧ a'.finishedAt = some now ∧
      a'.timedOutCount = a.timedOutCount ∧ a'.currentIndex = a.currentIndex + 1 ∧
      (questionView db pid aid sk Method.post skip cid now).2 =
        QuestionResult.redirectFinish ∧
      ∀ sk2 method2 skip2 cid2 now2,
        questionView (questionView db pid aid sk Method.post skip cid now).1 pid aid sk2
            method2 skip2 cid2 now2 =
          ((questionView db pid aid sk Method.post skip cid now).1,
            QuestionResult.redirectFinish) := by
  have hpre : questionView db pid aid sk Method.post skip cid now =
      qvTimed db a q quiz Method.post skip cid now := by
    unfold questionView
    simp only [h1]
    rw [if_pos h2, h3]
    simp only [Bool.false_eq_true, if_false]
    simp only [h4]
    unfold qvLocked
    rw [if_neg (by rw [h5]; simp), if_neg (by rw [h5]; exact h6)]
    unfold qvQuestion
    simp only []
    simp only [h7, h8]
  have hens : ensureAnswerRow db a q now = (db, ans) := by
    unfold ensureAnswerRow
    rw [h9]
  have hbody : qvTimed db a q quiz Method.post skip cid now =
      qvSubmit db a q quiz ans skip cid now := by
    unfold qvTimed
    rw [hens]
    simp only [h10]
    simp
  rw [hpre, hbody]
  unfold qvSubmit
  simp only [h10, Bool.false_eq_true, if_false]
  unfold qvAdvance
  simp only [updateAnswer_questions]
  rw [if_pos h11]
  unfold finishAttempt
  simp only [h3, Bool.false_eq_true, if_false]
  refine ⟨{ a with
            score := a.score +
              (if (!skip &&
                   ((resolveChoice db.choices q skip cid).map Choice.isCorrect).getD false) =
                  true then 1 else 0),
            currentIndex := a.currentIndex + 1, isFinished := true,
            finishedReason := "normal", finishedAt := some now },
    find_replace_by_key Attempt.id _ h1 rfl, ?_, ?_, ?_, ?_, ?_, ?_,
    fun sk2 method2 skip2 cid2 now2 => ?_⟩
  · rfl
  · rfl
  · rfl
  · rfl
  · rfl
  · trivial
  · have hrep : findAttempt
        (updateAttempt
          (updateAnswer db
            { ans with
              answeredAt := some now,
              selectedChoice := if skip then none
                                else (resolveChoice db.choices q skip cid).map Choice.id })
          { a with
            score := a.score +
              (if (!skip &&
                   ((resolveChoice db.choices q skip cid).map Choice.isCorrect).getD false) =
                  true then 1 else 0),
            currentIndex := a.currentIndex + 1, isFinished := true,
            finishedReason := "normal", finishedAt := some now }) aid =
        some { a with
               score := a.score +
                 (if (!skip &&
                      ((resolveChoice db.choices q skip cid).map Choice.isCorrect).getD
                        false) = true then 1 else 0),
               currentIndex := a.currentIndex + 1, isFinished := true,
               finishedReason := "normal", finishedAt := some now } :=
      find_replace_by_key Attempt.id _ h1 rfl
    exact questionView_finished _ pid aid _ hrep h2 rfl sk2 method2 skip2 cid2 now2

/-- C3 witness: a one-question quiz finished by an in-time skip submission
at the concrete store. -/
theorem c3_witness :
    ∃ a', findAttempt (questionView dbW3 1 1 "k" Method.post true none 10).1 1 = some a' ∧
      a'.isFinished = true ∧ a'.finishedReason = "normal" ∧ a'.finishedAt = some 10 ∧
      a'.timedOutCount = aW3.timedOutCount ∧ a'.currentIndex = aW3.currentIndex + 1 ∧
      (questionView dbW3 1 1 "k" Method.post true none 10).2 =
        QuestionResult.redirectFinish ∧
      ∀ sk2 method2 skip2 cid2 now2,
        questionView (questionView dbW3 1 1 "k" Method.post true none 10).1 1 1 sk2
            method2 skip2 cid2 now2 =
          ((questionView dbW3 1 1 "k" Method.post true none 10).1,
            QuestionResult.redirectFinish) :=
  c3_amended dbW3 1 1 "k" true none 10 aW3 pW3 qW8 quizW8 ansW3 (by decide)
    (by decide) (by decide) (by decide) (by decide) (by decide) (by decide) (by decide)
    (by decide) (by decide) (by decide)

theorem insertSorted_perm (q : Question) (l : List Question) :
    (insertSorted q l).Perm (q :: l) := by
  induction l with
  | nil => exact List.Perm.refl _
  | cons x xs ih =>
    unfold insertSorted
    by_cases h : questionLe q x
    · rw [if_pos h]
    · rw [if_neg h]
      exact (ih.cons x).trans (List.Perm.swap q x xs)

theorem sortQuestions_perm (l : List Question) : (sortQuestions l).Perm l := by
  induction l with
  | nil => exact List.Perm.refl _
  | cons x xs ih => exact (insertSorted_perm x (sortQuestions xs)).trans (ih.cons x)

theorem orderedQuestions_idsNodup (questions : List Question) (quizId : Nat)
    (h : (questions.map Question.id).Nodup) :
    ((orderedQuestions questions quizId).map Question.id).Nodup := by
  have hperm : ((orderedQuestions questions quizId).map Question.id).Perm
      ((questions.filter (fun q => q.quizId == quizId)).map Question.id) :=
    (sortQuestions_perm _).map _
  have hsub : ((questions.filter (fun q => q.quizId == quizId)).map Question.id).Sublist
      (questions.map Question.id) :=
    (List.filter_sublist _).map _
  exact hperm.nodup_iff.mpr (h.sublist hsub)

theorem nthQ_mem {l : List Question} {i : Nat} {q : Question} (h : nthQ l i = some q) :
    q ∈ l := by
  induction l generalizing i with
  | nil => simp [nthQ] at h
  | cons x xs ih =>
    cases i with
    | zero =>
      unfold nthQ at h
      cases h
      exact List.mem_cons_self _ _
    | succ n =>
      have h' : nthQ xs n = some q := h
      exact List.mem_cons_of_mem _ (ih h')

theorem nthQ_idxOfQ {l : List Question} {i : Nat} {q : Question}
    (hn : (l.map Question.id).Nodup) (h : nthQ l i = some q) :
    idxOfQ q.id l = some i := by
  induction l generalizing i with
  | nil => simp [nthQ] at h
  | cons x xs ih =>
    rw [List.map_cons, List.nodup_cons] at hn
    cases i with
    | zero =>
      unfold nthQ at h
      cases h
      simp [idxOfQ]
    | succ n =>
      have h' : nthQ xs n = some q := h
      have hq : q ∈ xs := nthQ_mem h'
      have hx : ¬(x.id == q.id) = true := by
        simp only [beq_iff_eq]
        intro he
        exact hn.1 (he ▸ List.mem_map_of_mem Question.id hq)
      unfold idxOfQ
      rw [if_neg hx, ih hn.2 h']
      rfl

theorem c5step_refl (db : Db) (hk : answerKeysUnique db.answers)
    (hinv : answeredBelowPointer db) : C5Post db db :=
  ⟨hk, hinv, fun ans hmem _ => hmem⟩

theorem c5post_weaken (db dbE dbr : Db)
    (hsub : ∀ ans ∈ db.answers, ans ∈ dbE.answers)
    (h : C5Post dbE dbr) : C5Post db dbr :=
  ⟨h.1, h.2.1, fun ans hm hs => h.2.2 ans (hsub ans hm) hs⟩

theorem c5step_updateAttempt (db : Db) (hk : answerKeysUnique db.answers)
    (hinv : answeredBelowPointer db) (a b : Attempt) (ha : a ∈ db.attempts)
    (hb : b.id = a.id) (hq : b.quizId = a.quizId)
    (hidx : a.currentIndex ≤ b.currentIndex) :
    C5Post db (updateAttempt db b) := by
  refine ⟨hk, ?_, fun ans hmem _ => hmem⟩
  intro x hx ans hans hatt hsome
  have hx' : x ∈ db.attempts.map (fun y => if y.id == b.id then b else y) := hx
  rcases mem_replace_iff Attempt.id hx' with hxb | ⟨hxmem, hxid⟩
  · subst hxb
    have hatt2 : ans.attemptId = a.id := by rw [hatt, hb]
    rcases hinv a ha ans hans hatt2 hsome with ⟨i, hpos, hlt⟩
    refine ⟨i, ?_, lt_of_lt_of_le hlt hidx⟩
    show idxOfQ ans.questionId (orderedQuestions db.questions x.quizId) = some i
    rw [hq]
    exact hpos
  · rcases hinv x hxmem ans hans hatt hsome with ⟨i, hpos, hlt⟩
    exact ⟨i, hpos, hlt⟩

theorem finishAttempt_id (a : Attempt) (r : String) (n : Time) :
    (finishAttempt a r n).id = a.id := by
  unfold finishAttempt
  split <;> rfl

theorem finishAttempt_quizId (a : Attempt) (r : String) (n : Time) :
    (finishAttempt a r n).quizId = a.quizId := by
  unfold finishAttempt
  split <;> rfl

theorem finishAttempt_currentIndex (a : Attempt) (r : String) (n : Time) :
    (finishAttempt a r n).currentIndex = a.currentIndex := by
  unfold finishAttempt
  split <;> rfl

theorem c5step_write (db2 : Db) (hk : answerKeysUnique db2.answers)
    (hinv : answeredBelowPointer db2)
    (hansIds : (db2.answers.map Answer.id).Nodup)
    (hqids : (db2.questions.map Question.id).Nodup)
    (a : Attempt) (qq : Question) (ans ansX : Answer) (b2 : Attempt)
    (ha : a ∈ db2.attempts) (hansmem : ans ∈ db2.answers)
    (hkatt : ans.attemptId = a.id) (hkq : ans.questionId = qq.id)
    (hansnone : ans.answeredAt = none)
    (hXid : ansX.id = ans.id) (hXatt : ansX.attemptId = a.id)
    (hXq : ansX.questionId = qq.id)
    (hb2id : b2.id = a.id) (hb2quiz : b2.quizId = a.quizId)
    (hb2idx : b2.currentIndex = a.currentIndex + 1)
    (hn : nthQ (orderedQuestions db2.questions a.quizId) a.currentIndex = some qq) :
    C5Post db2 (updateAttempt (updateAnswer db2 ansX) b2) := by
  have hpos : idxOfQ qq.id (orderedQuestions db2.questions a.quizId) =
      some a.currentIndex :=
    nthQ_idxOfQ (orderedQuestions_idsNodup db2.questions a.quizId hqids) hn
  refine ⟨?_, ?_, ?_⟩
  · intro x hx y hy hatt hq2
    have hx' : x ∈ db2.answers.map (fun y => if y.id == ansX.id then ansX else y) := hx
    have hy' : y ∈ db2.answers.map (fun y => if y.id == ansX.id then ansX else y) := hy
    rcases mem_replace_iff Answer.id hx' with hx1 | ⟨hx1, hx2⟩
    · rcases mem_replace_iff Answer.id hy' with hy1 | ⟨hy1, hy2⟩
      · rw [hx1, hy1]
      · subst hx1
        exfalso
        have h1 : y.attemptId = ans.attemptId := by rw [← hatt, hXatt, hkatt]
        have h2 : y.questionId = ans.questionId := by rw [← hq2, hXq, hkq]
        have h3 : y = ans := hk y hy1 ans hansmem h1 h2
        exact hy2 (by rw [h3, hXid])
    · rcases mem_replace_iff Answer.id hy' with hy1 | ⟨hy1, hy2⟩
      · subst hy1
        exfalso
        have h1 : x.attemptId = ans.attemptId := by rw [hatt, hXatt, hkatt]
        have h2 : x.questionId = ans.questionId := by rw [hq2, hXq, hkq]
        have h3 : x = ans := hk x hx1 ans hansmem h1 h2
        exact hx2 (by rw [h3, hXid])
      · exact hk x hx1 y hy1 hatt hq2
  · intro b hb ansA hansA hatt2 hsome
    have hb' : b ∈ db2.attempts.map (fun y => if y.id == b2.id then b2 else y) := hb
    have hansA' : ansA ∈ db2.answers.map (fun y => if y.id == ansX.id then ansX else y) :=
      hansA
    rcases mem_replace_iff Attempt.id hb' with hb1 | ⟨hb1, hb2ne⟩
    · subst hb1
      rcases mem_replace_iff Answer.id hansA' with ha1 | ⟨ha1, ha2⟩
      · subst ha1
        refine ⟨a.currentIndex, ?_, ?_⟩
        · show idxOfQ ansA.questionId (orderedQuestions db2.questions b.quizId) =
            some a.currentIndex
          rw [hXq, hb2quiz]
          exact hpos
        · rw [hb2idx]
          exact Nat.lt_succ_self _
      · have hatt3 : ansA.attemptId = a.id := by rw [hatt2, hb2id]
        rcases hinv a ha ansA ha1 hatt3 hsome with ⟨i, hp, hl⟩
        refine ⟨i, ?_, ?_⟩
        · show idxOfQ ansA.questionId (orderedQuestions db2.questions b.quizId) = some i
          rw [hb2quiz]
          exact hp
        · rw [hb2idx]
          omega
    · rcases mem_replace_iff Answer.id hansA' with ha1 | ⟨ha1, ha2⟩
      · subst ha1
        exfalso
        apply hb2ne
        rw [← hatt2, hXatt, hb2id]
      · rcases hinv b hb1 ansA ha1 hatt2 hsome with ⟨i, hp, hl⟩
        exact ⟨i, hp, hl⟩
  · intro ansA hm hs
    have hne : ansA ≠ ans := by
      intro he
      rw [he, hansnone] at hs
      simp at hs
    have hneid : ansA.id ≠ ansX.id := by
      rw [hXid]
      intro he
      exact hne (List.inj_on_of_nodup_map hansIds hm hansmem he)
    exact mem_replace_of_ne Answer.id hm hneid

theorem c5step_advance (db2 : Db) (hk : answerKeysUnique db2.answers)
    (hinv : answeredBelowPointer db2)
    (hansIds : (db2.answers.map Answer.id).Nodup)
    (hqids : (db2.questions.map Question.id).Nodup)
    (a : Attempt) (qq : Question) (ans ansX : Answer) (aX : Attempt) (now : Time)
    (ha : a ∈ db2.attempts) (hansmem : ans ∈ db2.answers)
    (hkatt : ans.attemptId = a.id) (hkq : ans.questionId = qq.id)
    (hansnone : ans.answeredAt = none)
    (hXid : ansX.id = ans.id) (hXatt : ansX.attemptId = a.id)
    (hXq : ansX.questionId = qq.id)
    (haXid : aX.id = a.id) (haXquiz : aX.quizId = a.quizId)
    (haXidx : aX.currentIndex = a.currentIndex + 1)
    (hn : nthQ (orderedQuestions db2.questions a.quizId) a.currentIndex = some qq) :
    C5Post db2 (qvAdvance (updateAnswer db2 ansX) aX now).1 := by
  unfold qvAdvance
  split
  · exact c5step_write db2 hk hinv hansIds hqids a qq ans ansX
      (finishAttempt aX "normal" now) ha hansmem hkatt hkq hansnone hXid hXatt hXq
      (by rw [finishAttempt_id, haXid]) (by rw [finishAttempt_quizId, haXquiz])
      (by rw [finishAttempt_currentIndex, haXidx]) hn
  · exact c5step_write db2 hk hinv hansIds hqids a qq ans ansX aX ha hansmem
      hkatt hkq hansnone hXid hXatt hXq haXid haXquiz haXidx hn

theorem c5step_submit (db2 : Db) (hk : answerKeysUnique db2.answers)
    (hinv : answeredBelowPointer db2)
    (hansIds : (db2.answers.map Answer.id).Nodup)
    (hqids : (db2.questions.map Question.id).Nodup)
    (a : Attempt) (qq : Question) (quiz : Quiz) (ans : Answer) (skip : Bool)
    (cid : Option Nat) (now : Time)
    (ha : a ∈ db2.attempts) (hansmem : ans ∈ db2.answers)
    (hkatt : ans.attemptId = a.id) (hkq : ans.questionId = qq.id)
    (hansnone : ans.answeredAt = none)
    (hn : nthQ (orderedQuestions db2.questions a.quizId) a.currentIndex = some qq) :
    C5Post db2 (qvSubmit db2 a qq quiz ans skip cid now).1 := by
  by_cases hod : attemptIsOverdue a quiz ans now = true
  · have hstep : qvSubmit db2 a qq quiz ans skip cid now =
        qvAdvance (updateAnswer db2 { ans with answeredAt := some now,
                                               selectedChoice := none })
          { a with currentIndex := a.currentIndex + 1 } now := by
      unfold qvSubmit
      simp only [hod, if_true]
    rw [hstep]
    exact c5step_advance db2 hk hinv hansIds hqids a qq ans _ _ now ha hansmem
      hkatt hkq hansnone rfl hkatt hkq rfl rfl rfl hn
  · rw [Bool.not_eq_true] at hod
    have hstep : qvSubmit db2 a qq quiz ans skip cid now =
        qvAdvance (updateAnswer db2
            { ans with
              answeredAt := some now,
              selectedChoice := if skip then none
                                else (resolveChoice db2.choices qq skip cid).map Choice.id })
          { a with
            score := a.score +
              (if (!skip &&
                   ((resolveChoice db2.choices qq skip cid).map Choice.isCorrect).getD false) =
                  true then 1 else 0),
            currentIndex := a.currentIndex + 1 } now := by
      unfold qvSubmit
      simp only [hod, Bool.false_eq_true, if_false]
    rw [hstep]
    exact c5step_advance db2 hk hinv hansIds hqids a qq ans _ _ now ha hansmem
      hkatt hkq hansnone rfl hkatt hkq rfl rfl rfl hn

theorem c5step_timed (db : Db) (hwf : WFDb db) (hinv : answeredBelowPointer db)
    (a : Attempt) (qq : Question) (quiz : Quiz) (method : Method) (skip : Bool)
    (cid : Option Nat) (now : Time)
    (ha : a ∈ db.attempts)
    (hn : nthQ (orderedQuestions db.questions a.quizId) a.currentIndex = some qq) :
    C5Post db (qvTimed db a qq quiz method skip cid now).1 := by
  rcases hff : findAnswer db a.id qq.id with _ | ans
  · -- no Answer row yet: ensure creates one
    have hfindNone := List.find?_eq_none.mp hff
    have hpd : ensureAnswerRow db a qq now =
        (dbAfterCreate db a qq now, newAnswerRow db a qq now) := by
      unfold ensureAnswerRow dbAfterCreate newAnswerRow
      rw [hff]
    have hkeysE : answerKeysUnique (db.answers ++ [newAnswerRow db a qq now]) := by
      intro x hx y hy hatt hq2
      rcases List.mem_append.mp hx with hx1 | hx2
      · rcases List.mem_append.mp hy with hy1 | hy2
        · exact hwf.keys x hx1 y hy1 hatt hq2
        · have hy3 : y = newAnswerRow db a qq now := by simpa using hy2
          exfalso
          apply hfindNone x hx1
          rw [hy3] at hatt hq2
          simp only [newAnswerRow] at hatt hq2
          simp [hatt, hq2]
      · have hx3 : x = newAnswerRow db a qq now := by simpa using hx2
        rcases List.mem_append.mp hy with hy1 | hy2
        · exfalso
          apply hfindNone y hy1
          rw [hx3] at hatt hq2
          simp only [newAnswerRow] at hatt hq2
          simp [← hatt, ← hq2]
        · have hy3 : y = newAnswerRow db a qq now := by simpa using hy2
          rw [hx3, hy3]
    have hinvE : answeredBelowPointer (dbAfterCreate db a qq now) := by
      intro b hb ansA hansA hatt hsome
      rcases List.mem_append.mp hansA with h1 | h2
      · exact hinv b hb ansA h1 hatt hsome
      · have h3 : ansA = newAnswerRow db a qq now := by simpa using h2
        rw [h3] at hsome
        simp [newAnswerRow] at hsome
    have hidsE : ((db.answers ++ [newAnswerRow db a qq now]).map Answer.id).Nodup := by
      rw [List.map_append]
      refine List.Nodup.append hwf.ansIds (by simp) ?_
      intro i hi1 hi2
      simp [newAnswerRow] at hi2
      rcases List.mem_map.mp hi1 with ⟨x, hx, hxid⟩
      have := hwf.ansIdsLt x hx
      omega
    have hsub : ∀ x ∈ db.answers, x ∈ db.answers ++ [newAnswerRow db a qq now] :=
      fun x hx => List.mem_append_left _ hx
    have hq2 : qvTimed db a qq quiz method skip cid now =
        (if attemptIsOverdue a quiz (newAnswerRow db a qq now) now ∧
            method = Method.get then
           (updateAttempt (dbAfterCreate db a qq now)
              { a with timedOutCount := a.timedOutCount + 1,
                       currentIndex := a.currentIndex + 1 },
            QuestionResult.redirectQuestion)
         else
           match method with
           | Method.get =>
             (dbAfterCreate db a qq now,
              QuestionResult.render qq.id
                (attemptRemainingSeconds quiz (newAnswerRow db a qq now) now)
                (a.currentIndex + 1)
                (attemptTotalQuestions (dbAfterCreate db a qq now).questions a.quizId))
           | Method.post =>
             qvSubmit (dbAfterCreate db a qq now) a qq quiz (newAnswerRow db a qq now)
               skip cid now) := by
      unfold qvTimed
      rw [hpd]
    rw [hq2]
    split
    · exact c5post_weaken db _ _ hsub
        (c5step_updateAttempt _ hkeysE hinvE a _ ha rfl rfl (Nat.le_succ _))
    · cases method with
      | get => exact c5post_weaken db _ _ hsub (c5step_refl _ hkeysE hinvE)
      | post =>
        exact c5post_weaken db _ _ hsub
          (c5step_submit _ hkeysE hinvE hidsE hwf.qids a qq quiz _ skip cid now ha
            (List.mem_append_right _ (by simp)) rfl rfl rfl hn)
  · -- existing Answer row
    have hpd : ensureAnswerRow db a qq now = (db, ans) := by
      unfold ensureAnswerRow
      rw [hff]
    have hansmem : ans ∈ db.answers := List.mem_of_find?_eq_some hff
    have hkey := List.find?_some hff
    have hkatt : ans.attemptId = a.id := by
      simp only [Bool.and_eq_true, beq_iff_eq] at hkey
      exact hkey.1
    have hkq : ans.questionId = qq.id := by
      simp only [Bool.and_eq_true, beq_iff_eq] at hkey
      exact hkey.2
    have hansnone : ans.answeredAt = none := by
      cases hoption : ans.answeredAt with
      | none => rfl
      | some t =>
        exfalso
        have hsome : ans.answeredAt.isSome = true := by rw [hoption]; rfl
        rcases hinv a ha ans hansmem hkatt hsome with ⟨i, hp, hl⟩
        have hp2 : idxOfQ ans.questionId (orderedQuestions db.questions a.quizId) =
            some a.currentIndex := by
          rw [hkq]
          exact nthQ_idxOfQ (orderedQuestions_idsNodup db.questions a.quizId hwf.qids) hn
        rw [hp2] at hp
        cases hp
        exact lt_irrefl _ hl
    have hq2 : qvTimed db a qq quiz method skip cid now =
        (if attemptIsOverdue a quiz ans now ∧ method = Method.get then
           (updateAttempt db { a with timedOutCount := a.timedOutCount + 1,
                                      currentIndex := a.currentIndex + 1 },
            QuestionResult.redirectQuestion)
         else
           match method with
           | Method.get =>
             (db, QuestionResult.render qq.id (attemptRemainingSeconds quiz ans now)
               (a.currentIndex + 1) (attemptTotalQuestions db.questions a.quizId))
           | Method.post => qvSubmit db a qq quiz ans skip cid now) := by
      unfold qvTimed
      rw [hpd]
    rw [hq2]
    split
    · exact c5step_updateAttempt db hwf.keys hinv a _ ha rfl rfl (Nat.le_succ _)
    · cases method with
      | get => exact c5step_refl db hwf.keys hinv
      | post =>
        exact c5step_submit db hwf.keys hinv hwf.ansIds hwf.qids a qq quiz ans skip
          cid now ha hansmem hkatt hkq hansnone hn

theorem c5step_question (db : Db) (hwf : WFDb db) (hinv : answeredBelowPointer db)
    (a : Attempt) (method : Method) (skip : Bool) (cid : Option Nat) (now : Time)
    (ha : a ∈ db.attempts) :
    C5Post db (qvQuestion db a method skip cid now).1 := by
  rcases hq : attemptCurrentQuestion db.questions a with _ | qq
  · have hstep : qvQuestion db a method skip cid now =
        (updateAttempt db (finishAttempt a "normal" now), QuestionResult.redirectFinish) := by
      unfold qvQuestion
      rw [hq]
    rw [hstep]
    exact c5step_updateAttempt db hwf.keys hinv a _ ha (finishAttempt_id a _ now)
      (finishAttempt_quizId a _ now) (le_of_eq (finishAttempt_currentIndex a _ now).symm)
  · rcases hqz : findQuiz db a.quizId with _ | quiz
    · have hstep : qvQuestion db a method skip cid now = (db, QuestionResult.notFound) := by
        unfold qvQuestion
        rw [hq, hqz]
      rw [hstep]
      exact c5step_refl db hwf.keys hinv
    · have hstep : qvQuestion db a method skip cid now =
          qvTimed db a qq quiz method skip cid now := by
        unfold qvQuestion
        rw [hq, hqz]
      rw [hstep]
      have hn : nthQ (orderedQuestions db.questions a.quizId) a.currentIndex = some qq := by
        unfold attemptCurrentQuestion at hq
        by_cases hf : a.isFinished = true
        · rw [if_pos hf] at hq
          cases hq
        · rw [if_neg hf] at hq
          exact hq
      exact c5step_timed db hwf hinv a qq quiz method skip cid now ha hn

theorem c5step_locked (db : Db) (hwf : WFDb db) (hinv : answeredBelowPointer db)
    (a : Attempt) (p : Participant) (method : Method) (skip : Bool) (cid : Option Nat)
    (now : Time) (ha : a ∈ db.attempts) :
    C5Post db (qvLocked db a p method skip cid now).1 := by
  unfold qvLocked
  by_cases hb : normLower p.lockedDomain ≠ "" ∧ normLower p.lockedDomain ≠ normLower a.domain
  · rw [if_pos hb]
    exact c5step_updateAttempt db hwf.keys hinv a _ ha (finishAttempt_id a _ now)
      (finishAttempt_quizId a _ now) (le_of_eq (finishAttempt_currentIndex a _ now).symm)
  · rw [if_neg hb]
    by_cases hl : normLower p.lockedDomain = ""
    · rw [if_pos hl]
      exact c5step_question
        (updateParticipant db
          { p with lockedDomain := normLower a.domain, lockedAt := some now })
        ⟨hwf.qids, hwf.aids, hwf.ansIds, hwf.ansIdsLt, hwf.keys⟩ hinv a method skip cid
        now ha
    · rw [if_neg hl]
      exact c5step_question db hwf hinv a method skip cid now ha

theorem c5step_top (db : Db) (hwf : WFDb db) (hinv : answeredBelowPointer db)
    (pid aid : Nat) (sk : String) (method : Method) (skip : Bool) (cid : Option Nat)
    (now : Time) (a : Attempt) (hfa : findAttempt db aid = some a) :
    C5Post db (questionView db pid aid sk method skip cid now).1 := by
  unfold questionView
  simp only [hfa]
  by_cases hpid : a.participantId = pid
  · rw [if_pos hpid]
    by_cases hf : a.isFinished = true
    · rw [if_pos hf]
      exact c5step_refl db hwf.keys hinv
    · rw [if_neg hf]
      rcases hfp : findParticipant db a.participantId with _ | p
      · exact c5step_refl db hwf.keys hinv
      · exact c5step_locked db hwf hinv a p method skip cid now
          (List.mem_of_find?_eq_some hfa)
  · rw [if_neg hpid]
    exact c5step_refl db hwf.keys hinv

/-- C5 amended: in a well-formed store where every answered row sits below
its attempt's pointer, one `question_view` request (GET or POST, any
submission payload) preserves the at-most-one-Answer-per-(attempt,
question) constraint, preserves the below-pointer invariant, and leaves
every previously answered Answer row in the store unchanged --- so once
`answeredAt` is set, no submission ever changes that row or re-scores it.
(The claim's further assertion that a duplicate re-submission is a no-op
is false: the duplicate POST is processed as a submission to the *new*
current question --- see the counterexample.) -/
theorem c5_amended (db : Db) (hwf : WFDb db) (hinv : answeredBelowPointer db)
    (pid aid : Nat) (sk : String) (method : Method) (skip : Bool) (cid : Option Nat)
    (now : Time) :
    answerKeysUnique (questionView db pid aid sk method skip cid now).1.answers ∧
    answeredBelowPointer (questionView db pid aid sk method skip cid now).1 ∧
    ∀ ans ∈ db.answers, ans.answeredAt.isSome = true →
      ans ∈ (questionView db pid aid sk method skip cid now).1.answers := by
  rcases hfa : findAttempt db aid with _ | a
  · have he : questionView db pid aid sk method skip cid now =
        (db, QuestionResult.notFound) := by
      unfold questionView
      rw [hfa]
    rw [he]
    exact c5step_refl db hwf.keys hinv
  · exact c5step_top db hwf hinv pid aid sk method skip cid now a hfa

/-- C5 counterexample: after answering question 1 with choice 1 (pointer at
question 2, no Answer row for question 2 yet), a duplicate POST of the same
form is *not* a no-op that merely advances the pointer: it is processed as
a submission to question 2 --- a new Answer row for question 2 appears with
`answeredAt = 6` and `selectedChoice = null` (the stale choice id does not
belong to question 2) and the attempt is finished.  The already-answered
row for question 1 is untouched. -/
theorem c5_counterexample :
    findAnswer dbC5b 1 2 = none ∧
    (findAnswer dbC5c 1 2).map (fun x => (x.answeredAt, x.selectedChoice)) =
      some (some 6, none) ∧
    (findAnswer dbC5c 1 1).map (fun x => (x.answeredAt, x.selectedChoice)) =
      some (some 5, some 1) ∧
    (findAttempt dbC5c 1).map
        (fun a => (a.isFinished, a.currentIndex, a.score, a.finishedReason)) =
      some (true, 2, 1, "normal") := by
  decide

/-- C5 witness: the preservation theorem evaluated at a concrete
well-formed store. -/
theorem c5_witness :
    answerKeysUnique (questionView dbC4 1 1 "k" Method.post true none 10).1.answers ∧
    answeredBelowPointer (questionView dbC4 1 1 "k" Method.post true none 10).1 ∧
    ∀ ans ∈ dbC4.answers, ans.answeredAt.isSome = true →
      ans ∈ (questionView dbC4 1 1 "k" Method.post true none 10).1.answers :=
  c5_amended dbC4
    ⟨by decide, by decide, by decide, by decide, by unfold answerKeysUnique; decide⟩
    (by
      intro a ha ans hans hatt hsome
      have h : ans = ansC4 := by simpa [dbC4] using hans
      rw [h] at hsome
      simp [ansC4] at hsome)
    1 1 "k" Method.post true none 10

end ExamPortal

